import Mathlib

/-!
Verification of the plan-then-execute orchestration core.

Shallow embedding of the repository sources:
  src/src/tools/schemas.py      (tool parameter schemas, validate_tool_input)
  src/src/tools/registry.py     (run_tool)
  src/src/pte/tool_groups.py    (risk levels, is_tool_allowed_for_replan)
  src/src/pte/nodes/executor.py (executor_node)
  src/src/pte/nodes/planner.py  (planner_node validation)
  src/src/pte/nodes/replanner.py (replanner_node validation)
  src/src/pte/nodes/intent_classifier.py (tolerant response parsing)
  src/src/pte/graph.py          (routing functions)

Python values that flow through tool inputs (None | str | int | bool |
list | dict) are modelled by `Val`; Python dicts are ordered association
lists.  Fallible code returns `Except`; exceptions raised by tool
callables are a parameter (`ToolImpl`), since the tools themselves are
external collaborators.  The generation backend is likewise a parameter:
the nodes receive the (already decoded) backend response as an
`Except String _` argument.
-/

/-- A Python value as it appears in tool inputs and step payloads. -/
inductive Val where
  | vnone
  | vstr (s : String)
  | vint (n : Int)
  | vbool (b : Bool)
  | vlist (xs : List Val)
  | vdict (m : List (String × Val))
deriving Repr, Inhabited

/-- Python truthiness of a `Val` (`if tool_input:` etc.). -/
def truthy : Val → Bool
  | .vnone => false
  | .vstr s => ¬ s.isEmpty
  | .vint n => n ≠ 0
  | .vbool b => b
  | .vlist xs => ¬ xs.isEmpty
  | .vdict m => ¬ m.isEmpty

/-- Ordered-dict lookup: first binding of the key wins. -/
def alookup (k : String) (m : List (String × Val)) : Option Val :=
  (m.find? (fun p => p.1 == k)).map (fun p => p.2)

/-- Keys of an ordered dict. -/
def keysOf (m : List (String × Val)) : List String :=
  m.map (fun p => p.1)

/-! ## Tool schemas (src/tools/schemas.py) -/

/-- Structure `ParamSchema` (schemas.py:9-14): the `type`/`description` strings are
never consulted by `validate_tool_input`, only `required` (read with
`.get("required", False)`) and the presence/value of `default`. -/
structure ParamSchema where
  required : Bool := false
  default : Option Val := none
deriving Repr

/-- Structure `ToolSchema` (schemas.py:17-21): `input` is `None` for tools taking
no input, else an ordered mapping from parameter name to `ParamSchema`. -/
structure ToolSchema where
  input : Option (List (String × ParamSchema)) := none
deriving Repr

/-- Table `TOOL_SCHEMAS` (schemas.py:25-103), parameters in source order. -/
def TOOL_SCHEMAS : List (String × ToolSchema) :=
  [ ("get_current_datetime", { input := none }),
    ("calculator", { input := some [("expression", { required := true })] }),
    ("get_weather", { input := some [("city", { required := true })] }),
    ("web_search", { input := some [("query", { required := true })] }),
    ("search_wikipedia", { input := some [("query", { required := true })] }),
    ("python_repl", { input := some [("code", { required := true })] }),
    ("rag_retrieve",
      { input := some
          [ ("query", { required := true }),
            ("top_k", { required := false, default := some (.vint 3) }) ] }) ]

/-- Function `get_tool_schema` (schemas.py:106-108). -/
def get_tool_schema (tool_name : String) : Option ToolSchema :=
  ((TOOL_SCHEMAS.find? (fun p => p.1 == tool_name)).map (fun p => p.2))

/-- Exceptions of the invocation layer.  The first five are the
`ValueError`s raised by registry.py / schemas.py and the Python
`TypeError` for an unexpected keyword argument; `raised` wraps an
exception escaping a tool callable. -/
inductive PyErr where
  | unknownTool (tool : String)
  | missingRequiredAll (tool : String) (params : List String)
  | missingRequiredParam (tool : String) (param : String)
  | unsupportedInput
  | unexpectedKwarg (fn : String) (kw : String)
  | raised (msg : String)
deriving Repr

/-- Rendering `str(e)` of an invocation-layer exception (message text abridged:
the claims depend on the error kind, not the exact wording). -/
def errMsg : PyErr → String
  | .unknownTool t => "알 수 없는 도구: " ++ t
  | .missingRequiredAll t ps =>
      "도구 " ++ t ++ "에 필수 파라미터가 누락됨: " ++ String.intercalate ", " ps
  | .missingRequiredParam t p => "도구 " ++ t ++ "에 필수 파라미터 " ++ p ++ " 누락"
  | .unsupportedInput => "지원하지 않는 입력 타입"
  | .unexpectedKwarg fn kw => fn ++ "() got an unexpected keyword argument: " ++ kw
  | .raised m => m

/-- The `dict` branch of `validate_tool_input` (schemas.py:163-177):
walk the declared parameters in schema order; take the supplied value,
else the declared default, else fail if required, else skip. -/
def validate_dict (tool_name : String) :
    List (String × ParamSchema) → List (String × Val) →
    Except PyErr (List (String × Val))
  | [], _ => .ok []
  | (pname, pschema) :: rest, m =>
    match alookup pname m with
    | some v =>
      match validate_dict tool_name rest m with
      | .ok tail => .ok ((pname, v) :: tail)
      | .error e => .error e
    | none =>
      if pschema.required then .error (.missingRequiredParam tool_name pname)
      else
        match pschema.default with
        | some d =>
          match validate_dict tool_name rest m with
          | .ok tail => .ok ((pname, d) :: tail)
          | .error e => .error e
        | none => validate_dict tool_name rest m

/-- Body of `validate_tool_input` after the `input_schema` has been fetched and
found non-`None` (schemas.py:136-180). -/
def validate_with_schema (tool_name : String)
    (input_schema : List (String × ParamSchema)) (tool_input : Val) :
    Except PyErr (Option (List (String × Val))) :=
  match tool_input with
  | .vnone =>
    let required_params := (input_schema.filter (fun p => p.2.required)).map (fun p => p.1)
    if ¬ required_params.isEmpty then
      .error (.missingRequiredAll tool_name required_params)
    else .ok (some [])
  | .vstr s =>
    let required_params := (input_schema.filter (fun p => p.2.required)).map (fun p => p.1)
    match required_params with
    | p :: _ => .ok (some [(p, .vstr s)])
    | [] =>
      match input_schema with
      | (q, _) :: _ => .ok (some [(q, .vstr s)])
      | [] => .ok (some [])
  | .vdict m =>
    match validate_dict tool_name input_schema m with
    | .ok v => .ok (some v)
    | .error e => .error e
  | _ => .error .unsupportedInput

/-- Function `validate_tool_input` (schemas.py:111-180).  `.ok none` models the
Python return value `None` (tool called with no arguments). -/
def validate_tool_input (tool_name : String) (tool_input : Val) :
    Except PyErr (Option (List (String × Val))) :=
  match get_tool_schema tool_name with
  | none => .ok (if truthy tool_input then some [("_raw", tool_input)] else none)
  | some schema =>
    match schema.input with
    | none => .ok none
    | some input_schema => validate_with_schema tool_name input_schema tool_input

/-! ## Tool registry (src/tools/registry.py) -/

/-- The keys of `TOOLS` (registry.py:16-24). -/
def TOOLS : List String :=
  ["calculator", "get_current_datetime", "get_weather", "web_search",
   "search_wikipedia", "python_repl", "rag_retrieve"]

/-- Shape of the arguments a tool callable receives (registry.py:68-88):
no arguments, one positional argument, or keyword arguments. -/
inductive CallArgs where
  | noArgs
  | positional (v : Val)
  | keyword (kw : List (String × Val))
deriving Repr

/-- Search-tool context injection (registry.py:83-87): `context` is added
only when truthy; `from_previous_step` and `history` always. -/
def inject_search_context (validated : List (String × Val))
    (context : Option String) (from_previous_step : Bool) (history : Val) :
    List (String × Val) :=
  let v1 := match context with
    | some c => if ¬ c.isEmpty then validated ++ [("context", .vstr c)] else validated
    | none => validated
  v1 ++ [("from_previous_step", .vbool from_previous_step), ("history", history)]

/-- The argument-assembly portion of `run_tool` (registry.py:59-88):
everything up to the final call of the tool callable. -/
def run_tool_call (tool_name : String) (tool_input : Val)
    (context : Option String) (from_previous_step : Bool) (history : Val) :
    Except PyErr CallArgs :=
  if ¬ TOOLS.contains tool_name then .error (.unknownTool tool_name)
  else
    match validate_tool_input tool_name tool_input with
    | .error e => .error e
    | .ok none => .ok .noArgs
    | .ok (some validated) =>
      match alookup "_raw" validated with
      | some raw =>
        match raw with
        | .vdict m => .ok (.keyword m)
        | .vnone => .ok .noArgs
        | r => .ok (.positional r)
      | none =>
        if ["web_search", "rag_retrieve", "search_wikipedia"].contains tool_name then
          .ok (.keyword (inject_search_context validated context from_previous_step history))
        else .ok (.keyword validated)

/-- Behaviour of the external tool callables: given tool name and call
arguments, return the output string or the message of a raised
exception. -/
def ToolImpl : Type := String → CallArgs → Except String String

/-- Function `run_tool` (registry.py:37-88), parameterised by the tool
implementations. -/
def run_tool (impl : ToolImpl) (tool_name : String) (tool_input : Val)
    (context : Option String) (from_previous_step : Bool) (history : Val) :
    Except PyErr String :=
  match run_tool_call tool_name tool_input context from_previous_step history with
  | .error e => .error e
  | .ok args =>
    match impl tool_name args with
    | .ok s => .ok s
    | .error m => .error (.raised m)

/-! ## Tool groups and risk (src/pte/tool_groups.py) -/

/-- Group and risk of a `ToolDefinition` (tool_groups.py:29-37); the
other fields are prompt text. -/
structure ToolDef where
  group : String
  risk : String
deriving Repr

/-- Table `TOOL_DEFINITIONS` (tool_groups.py:41-115). -/
def TOOL_DEFINITIONS : List (String × ToolDef) :=
  [ ("web_search", { group := "search", risk := "low" }),
    ("search_wikipedia", { group := "search", risk := "low" }),
    ("rag_retrieve", { group := "search", risk := "low" }),
    ("get_weather", { group := "query", risk := "low" }),
    ("get_current_datetime", { group := "query", risk := "low" }),
    ("calculator", { group := "compute", risk := "low" }),
    ("python_repl", { group := "compute", risk := "high" }) ]

/-- Function `get_tool_risk` (tool_groups.py:118-122): unknown tools are HIGH. -/
def get_tool_risk (tool_name : String) : String :=
  match TOOL_DEFINITIONS.find? (fun p => p.1 == tool_name) with
  | some p => p.2.risk
  | none => "high"

/-- Function `is_tool_allowed_for_replan` (tool_groups.py:125-130). -/
def is_tool_allowed_for_replan (tool_name : String) : Bool :=
  get_tool_risk tool_name ≠ "high"

/-! ## PTE data model (src/pte/state.py, src/pte/schemas.py) -/

/-- A plan step dict as produced by `step.model_dump()` plus the
planner/replanner normalisation (pydantic `PlanStep`, pte/schemas.py:12-29). -/
structure PlanStepD where
  step_id : Option Int := none
  tool : String
  input : Val := .vnone
  query : Option String := none
  input_from : Option String := none
  task : Option String := none
deriving Repr

/-- A `past_steps` entry (executor.py:82-86): keys `step`, `status`,
`output` only. -/
structure StepResult where
  step : PlanStepD
  status : String
  output : String
deriving Repr

/-- A `PlanStepD` as a Python dict value. -/
def planStepVal (p : PlanStepD) : Val :=
  .vdict
    [ ("step_id", match p.step_id with | some i => .vint i | none => .vnone),
      ("tool", .vstr p.tool),
      ("input", p.input),
      ("query", match p.query with | some q => .vstr q | none => .vnone),
      ("input_from", match p.input_from with | some f => .vstr f | none => .vnone),
      ("task", match p.task with | some t => .vstr t | none => .vnone) ]

/-- Lookup `s.get(key)` on a StepResult dict: its keys are exactly `step`,
`status` and `output` (executor.py:82-86), every other lookup misses. -/
def stepresult_get (s : StepResult) (key : String) : Option Val :=
  if key == "step" then some (planStepVal s.step)
  else if key == "status" then some (.vstr s.status)
  else if key == "output" then some (.vstr s.output)
  else none

/-- Structure `PTEState` (state.py:12-61). -/
structure PTEState where
  input : String := ""
  messages : List (String × String) := []
  current_datetime : String := ""
  tool_manifest : String := ""
  available_tools : List String := []
  intent : String := "new_question"
  rewritten_query : String := ""
  needs_tool : Bool := true
  time_sensitive : String := "none"
  plan : List PlanStepD := []
  past_steps : List StepResult := []
  replan_count : Nat := 0
  error : Option String := none
  result : Option String := none

/-- The dict a node returns: present keys overwrite the state field
(LangGraph merge for plain fields).  `error := some none` models the
planner explicitly returning `"error": None`. -/
structure StateDelta where
  intent : Option String := none
  rewritten_query : Option String := none
  needs_tool : Option Bool := none
  time_sensitive : Option String := none
  plan : Option (List PlanStepD) := none
  past_steps : Option (List StepResult) := none
  replan_count : Option Nat := none
  error : Option (Option String) := none
  result : Option (Option String) := none
deriving Repr

/-- Merge a node delta into the state (LangGraph default overwrite). -/
def applyDelta (state : PTEState) (d : StateDelta) : PTEState :=
  { state with
    intent := d.intent.getD state.intent,
    rewritten_query := d.rewritten_query.getD state.rewritten_query,
    needs_tool := d.needs_tool.getD state.needs_tool,
    time_sensitive := d.time_sensitive.getD state.time_sensitive,
    plan := d.plan.getD state.plan,
    past_steps := d.past_steps.getD state.past_steps,
    replan_count := d.replan_count.getD state.replan_count,
    error := d.error.getD state.error,
    result := d.result.getD state.result }

/-! ## Step executor (src/pte/nodes/executor.py) -/

/-- Set `SEARCH_TOOLS` (executor.py:15). -/
def SEARCH_TOOLS : List String := ["web_search", "rag_retrieve", "search_wikipedia"]

/-- The keyword parameters `run_tool` declares besides the two
positional ones (registry.py:37-43). -/
def RUN_TOOL_KW_PARAMS : List String := ["context", "from_previous_step", "history"]

/-- The keyword arguments the executor names when dispatching a
search-capability tool (executor.py:65-73). -/
def EXECUTOR_SEARCH_KWARGS : List String :=
  ["context", "from_previous_step", "history", "intent", "time_sensitive"]

/-- Python `str.replace(pat, "")`: delete every non-overlapping
occurrence of `pat`, left to right.  The fuel argument (instantiated
with the text length, which bounds the number of steps) keeps the
recursion structural. -/
def replaceAllFuel (pat : List Char) : Nat → List Char → List Char
  | _, [] => []
  | 0, l => l
  | fuel + 1, c :: cs =>
    if pat.isPrefixOf (c :: cs) ∧ ¬ pat.isEmpty then
      replaceAllFuel pat fuel (cs.drop (pat.length - 1))
    else c :: replaceAllFuel pat fuel cs

def replaceAll (pat l : List Char) : List Char := replaceAllFuel pat l.length l

/-- Stripping `input_from.replace("step_", "")` (executor.py:50). -/
def strip_step (s : String) : String :=
  String.mk (replaceAll ("step_".toList) s.toList)

/-- Python `str.strip()` of a character list. -/
def trimChars (l : List Char) : List Char :=
  ((l.dropWhile (fun c => c.isWhitespace)).reverse.dropWhile
    (fun c => c.isWhitespace)).reverse

/-- Decimal value of a digit string. -/
def digitsVal (l : List Char) : Nat :=
  l.foldl (fun a c => a * 10 + (c.toNat - 48)) 0

/-- A non-empty all-digit string, or nothing. -/
def parseDigits (l : List Char) : Option Nat :=
  if ¬ l.isEmpty ∧ l.all (fun c => c.isDigit) then some (digitsVal l) else none

/-- Python `int(s)` on a decimal string: optional surrounding
whitespace, optional sign, digits; anything else is a `ValueError`
(executor.py:50 wraps it in a try that falls back to the literal
input). -/
def pyParseInt (s : String) : Option Int :=
  match trimChars s.toList with
  | [] => none
  | c :: rest =>
    if c = Char.ofNat 45 then (parseDigits rest).map (fun n => -(n : Int))
    else if c = Char.ofNat 43 then (parseDigits rest).map (fun n => (n : Int))
    else (parseDigits (c :: rest)).map (fun n => (n : Int))

/-- Input resolution (executor.py:40-57): if `input_from` is truthy and
`past_steps` non-empty, parse the referenced step id and substitute the
output of the first matching past result, flagging the call as derived
from a previous step; otherwise keep the literal input. -/
def resolve_input (step : PlanStepD) (past_steps : List StepResult) : Val × Bool :=
  match step.input_from with
  | some f =>
    if ¬ f.isEmpty ∧ ¬ past_steps.isEmpty then
      match pyParseInt (strip_step f) with
      | some n =>
        match past_steps.find? (fun p => p.step.step_id == some n) with
        | some p => (.vstr p.output, true)
        | none => (step.input, false)
      | none => (step.input, false)
    else (step.input, false)
  | none => (step.input, false)

/-- The conversation history as the Python value handed to `run_tool`. -/
def historyVal (messages : List (String × String)) : Val :=
  .vlist (messages.map (fun m => .vdict [("role", .vstr m.1), ("content", .vstr m.2)]))

/-- The tool dispatch (executor.py:62-75).  For search tools the call
site names keyword arguments `intent` and `time_sensitive` that the
signature of `run_tool` (registry.py:37-43) does not declare, so Python
raises `TypeError` at the call, before `run_tool` runs; the filter below
is that signature check. -/
def executor_dispatch (impl : ToolImpl) (state : PTEState) (tool_name : String)
    (tool_input : Val) (from_previous_step : Bool) : Except PyErr String :=
  if SEARCH_TOOLS.contains tool_name then
    match EXECUTOR_SEARCH_KWARGS.filter (fun k => ¬ RUN_TOOL_KW_PARAMS.contains k) with
    | k :: _ => .error (.unexpectedKwarg "run_tool" k)
    | [] =>
      run_tool impl tool_name tool_input (some state.input) from_previous_step
        (historyVal state.messages)
  else run_tool impl tool_name tool_input none false .vnone

/-- The try/except of executor.py:62-79: every exception out of the
dispatch is caught and turned into a failed StepResult whose output is
the exception message. -/
def recorded_result (impl : ToolImpl) (state : PTEState) (step : PlanStepD) :
    StepResult :=
  match executor_dispatch impl state step.tool
      (resolve_input step state.past_steps).1
      (resolve_input step state.past_steps).2 with
  | .ok out => { step := step, status := "success", output := out }
  | .error e => { step := step, status := "failure", output := errMsg e }

/-- Function `executor_node` (executor.py:18-91): pop the first step, resolve its
input, dispatch, catch any exception into a failed StepResult, and
return the shortened plan plus the appended result. -/
def executor_node (impl : ToolImpl) (state : PTEState) : StateDelta :=
  match state.plan with
  | [] => { plan := some [], past_steps := some state.past_steps }
  | step :: rest =>
    { plan := some rest,
      past_steps := some (state.past_steps ++ [recorded_result impl state step]) }

/-! ## Plan synthesizer (src/pte/nodes/planner.py, replanner.py) -/

/-- A pydantic `PlanStep` as decoded from the backend response
(pte/schemas.py:12-29). -/
structure PStep where
  step_id : Option Int := none
  tool : String
  input : Val := .vnone
  query : Option String := none
  input_from : Option String := none
  task : Option String := none
deriving Repr

/-- A pydantic `Plan` (pte/schemas.py:36-45). -/
structure PlanR where
  steps : List PStep
  reasoning : Option String := none
deriving Repr

/-- Per-step normalisation shared by planner and replanner
(planner.py:188-196, replanner.py:150-158): default a missing `step_id`
to the 1-based position, and fold a truthy `query` into an untruthy
`input`. -/
def normalize_step (idx : Nat) (step : PStep) : PlanStepD :=
  let sid : Int := match step.step_id with
    | none => (idx : Int)
    | some i => i
  let inp : Val := match step.query with
    | some q => if ¬ q.isEmpty ∧ ¬ truthy step.input then .vstr q else step.input
    | none => step.input
  { step_id := some sid, tool := step.tool, input := inp,
    query := step.query, input_from := step.input_from, task := step.task }

/-- The planner validation loop (planner.py:178-197): reject the whole
plan at the first step whose tool is not available, else normalise every
step. -/
def validate_plan_steps (available_tools : List String) :
    Nat → List PStep → Except String (List PlanStepD)
  | _, [] => .ok []
  | idx, step :: rest =>
    if ¬ available_tools.contains step.tool then
      .error ("허용되지 않은 도구: " ++ step.tool)
    else
      match validate_plan_steps available_tools (idx + 1) rest with
      | .ok tail => .ok (normalize_step idx step :: tail)
      | .error e => .error e

/-- Function `planner_node` (planner.py:119-212), parameterised by the decoded
backend response: `.error` stands for any exception out of the LLM call,
JSON parsing or pydantic validation (all caught by the same handler). -/
def planner_node (state : PTEState) (response : Except String PlanR) : StateDelta :=
  match response with
  | .error e =>
    { error := some (some ("계획 생성 실패: " ++ e)), plan := some [], past_steps := some [] }
  | .ok plan =>
    match validate_plan_steps state.available_tools 1 plan.steps with
    | .error msg => { error := some (some msg), plan := some [], past_steps := some [] }
    | .ok plan_dicts =>
      { plan := some plan_dicts, past_steps := some [],
        replan_count := some 0, error := some none }

/-- Router `after_planner` (graph.py:31-42): Python truthiness of
`state.get("error")` decides the route. -/
def errTruthy : Option String → Bool
  | some e => ¬ e.isEmpty
  | none => false

def after_planner (state : PTEState) : String :=
  if errTruthy state.error then "error_handler"
  else if ¬ state.plan.isEmpty then "executor"
  else "final_answer"

/-- Test `any(s.get("tool") == step.tool for s in state["past_steps"])`
(replanner.py:143-146), embedded through `stepresult_get`: the entries
of `past_steps` carry the tool name only inside their `step` dict, so
this membership test inspects a key that is never present. -/
def was_in_original (past_steps : List StepResult) (tool : String) : Bool :=
  past_steps.any (fun s =>
    match stepresult_get s "tool" with
    | some (.vstr t) => t == tool
    | _ => false)

/-- The replanner validation loop (replanner.py:133-159): planner
validation plus the high-risk gate. -/
def validate_replan_steps (available_tools : List String)
    (past_steps : List StepResult) :
    Nat → List PStep → Except String (List PlanStepD)
  | _, [] => .ok []
  | idx, step :: rest =>
    if ¬ available_tools.contains step.tool then
      .error ("허용되지 않은 도구: " ++ step.tool)
    else if ¬ is_tool_allowed_for_replan step.tool ∧ ¬ was_in_original past_steps step.tool then
      .error ("Re-plan에서 고위험 도구 추가 불가: " ++ step.tool)
    else
      match validate_replan_steps available_tools past_steps (idx + 1) rest with
      | .ok tail => .ok (normalize_step idx step :: tail)
      | .error e => .error e

/-- The `ReplanLimitExceeded` message (replanner.py:87). -/
def replanLimitMsg (max_replan : Nat) : String :=
  "최대 재계획 횟수(" ++ toString max_replan ++ ")를 초과했습니다."

/-- Function `replanner_node` (replanner.py:72-167), parameterised by the decoded
backend response, which again stands for the whole
invoke/parse/validate pipeline; the returned flag records whether the
generation backend was called (the short-circuit branch returns before
the LLM is invoked). -/
def replanner_node (max_replan : Nat) (state : PTEState)
    (response : Except String PlanR) : StateDelta × Bool :=
  if state.replan_count ≥ max_replan then
    ({ error := some (some (replanLimitMsg max_replan)) }, false)
  else
    match response with
    | .error e => ({ error := some (some ("재계획 실패: " ++ e)) }, true)
    | .ok plan =>
      match validate_replan_steps state.available_tools state.past_steps 1 plan.steps with
      | .error msg => ({ error := some (some msg) }, true)
      | .ok plan_dicts =>
        ({ plan := some plan_dicts, replan_count := some (state.replan_count + 1) }, true)

/-! ## Intent classifier (src/pte/nodes/intent_classifier.py) -/

/-- Lowercasing, character-wise (`re.IGNORECASE` / `.lower()`). -/
def lowerChars (l : List Char) : List Char := l.map Char.toLower

/-- Python `str.strip()` as a `String` operation. -/
def pyStrip (s : String) : String := String.mk (trimChars s.toList)

/-- One attempt of the labeled-field regexes
(intent_classifier.py:226-272) at a fixed position: the label, then
optional whitespace, then one of the alternation branches, matched
case-insensitively (the inputs here are already lowercased). -/
def matchAltAt (label : List Char) (alts : List String) (l : List Char) : Option String :=
  if label.isPrefixOf l then
    alts.find? (fun a =>
      (a.toList).isPrefixOf ((l.drop label.length).dropWhile (fun c => c.isWhitespace)))
  else none

def findLabeledAltAux (label : List Char) (alts : List String) : List Char → Option String
  | [] => none
  | c :: cs =>
    match matchAltAt label alts (c :: cs) with
    | some a => some a
    | none => findLabeledAltAux label alts cs

/-- Matching `re.search(label + alternation, text, re.IGNORECASE)` followed by
`.group(1).lower()`: the first position where the label, optional
whitespace and one alternative all match. -/
def findLabeledAlt (label : String) (alts : List String) (text : String) : Option String :=
  findLabeledAltAux (lowerChars label.toList) alts (lowerChars text.toList)

/-- Continuation of the lazy capture `(.+?)(?:\n|---|$)`: extend until a
newline, a `---` fence or the end of the text. -/
def captureTail : List Char → List Char
  | [] => []
  | c :: cs =>
    if c = Char.ofNat 10 then []
    else if [Char.ofNat 45, Char.ofNat 45, Char.ofNat 45].isPrefixOf (c :: cs) then []
    else c :: captureTail cs

/-- The capture `(.+?)` needs at least one character and `.` never
matches a newline. -/
def captureFirst : List Char → Option (List Char)
  | [] => none
  | c :: cs => if c = Char.ofNat 10 then none else some (c :: captureTail cs)

/-- Scan for the label case-insensitively (`lower` walks the lowercased
text, `orig` the original in lockstep) and capture the rest of the line
from the original text. -/
def captureLabeledAux (label : List Char) : List Char → List Char → Option (List Char)
  | [], _ => none
  | _ :: _, [] => none
  | lc :: lcs, oc :: ocs =>
    if label.isPrefixOf (lc :: lcs) then
      match captureFirst
          (((oc :: ocs).drop label.length).dropWhile (fun c => c.isWhitespace)) with
      | some cap => some cap
      | none => captureLabeledAux label lcs ocs
    else captureLabeledAux label lcs ocs

/-- Matching `re.search(label + r"\s*(.+?)(?:\n|---|$)", text, re.IGNORECASE)`,
returning the raw capture. -/
def captureLabeled (label : String) (text : String) : Option String :=
  (captureLabeledAux (lowerChars label.toList) (lowerChars text.toList) (text.toList)).map
    (fun l => String.mk l)

/-- Substitution `re.sub(r"^[\[\x22\x27]|[\]\x22\x27]$", "", query)`: drop one
leading bracket/quote and one trailing bracket/quote
(intent_classifier.py:261). -/
def stripQuoteBrackets (s : String) : String :=
  let l := s.toList
  let l1 := match l with
    | c :: cs =>
      if c = Char.ofNat 91 ∨ c = Char.ofNat 34 ∨ c = Char.ofNat 39 then cs else l
    | [] => []
  let l2 := match l1.getLast? with
    | some c =>
      if c = Char.ofNat 93 ∨ c = Char.ofNat 34 ∨ c = Char.ofNat 39 then l1.dropLast else l1
    | none => []
  String.mk l2

/-- The rewritten-query override (intent_classifier.py:253-263): capture,
strip, drop surrounding bracket/quote, and only override when the rest
is non-empty and not the word none. -/
def query_override (text : String) : Option String :=
  match captureLabeled "rewritten query:" text with
  | none => none
  | some cap =>
    let q := stripQuoteBrackets (pyStrip cap)
    if ¬ q.isEmpty ∧ String.mk (lowerChars q.toList) ≠ "none" then some q else none

/-- The parsed classification (the `constraints` entry is extracted only
for logging and never returned by the node, so it is not modelled). -/
structure IntentParse where
  intent : String
  rewritten_query : String
  needs_tool : Bool
  time_sensitive : String
deriving Repr

/-- Function `_parse_intent_response` (intent_classifier.py:205-279): start from
the safe defaults and override each field whose labeled pattern
matches; `chitchat` forces `needs_tool := false` and an empty rewritten
query. -/
def _parse_intent_response (response_text : String) (fallback_query : String) :
    IntentParse :=
  let text := pyStrip response_text
  let intent :=
    (findLabeledAlt "intent:"
      ["new_question", "follow_up", "clarification", "chitchat"] text).getD "new_question"
  let time_sensitive :=
    (findLabeledAlt "time sensitive:" ["none", "current", "specified"] text).getD "none"
  let rewritten_query := (query_override text).getD fallback_query
  let needs_tool :=
    match findLabeledAlt "needs tool:" ["true", "false"] text with
    | some a => a == "true"
    | none => true
  if intent == "chitchat" then
    { intent := intent, rewritten_query := "", needs_tool := false,
      time_sensitive := time_sensitive }
  else
    { intent := intent, rewritten_query := rewritten_query, needs_tool := needs_tool,
      time_sensitive := time_sensitive }

/-- Function `intent_classifier_node` (intent_classifier.py:282-340),
parameterised by the backend outcome (`.error` = `llm.invoke` raised).
The whole body sits in one `try`, so the node itself is total and any
failure lands in the deterministic default branch. -/
def intent_classifier_node (state : PTEState) (backend : Except String String) :
    StateDelta :=
  match backend with
  | .error _ =>
    { intent := some "new_question", rewritten_query := some state.input,
      needs_tool := some true, time_sensitive := some "none" }
  | .ok content =>
    let result := _parse_intent_response content state.input
    { intent := some result.intent,
      rewritten_query :=
        some (if result.rewritten_query.isEmpty then state.input else result.rewritten_query),
      needs_tool := some result.needs_tool,
      time_sensitive := some result.time_sensitive }

/-! ## Helper lemmas -/

lemma alookup_nil (k : String) : alookup k [] = none := rfl

lemma alookup_cons (k a : String) (x : Val) (m : List (String × Val)) :
    alookup k ((a, x) :: m) = if a == k then some x else alookup k m := by
  simp only [alookup, List.find?_cons]
  by_cases h : a == k <;> simp [h]

lemma alookup_append (k : String) (v w : List (String × Val)) :
    alookup k (v ++ w) = (alookup k v).or (alookup k w) := by
  simp only [alookup, List.find?_append]
  cases List.find? (fun p => p.1 == k) v <;> simp

lemma alookup_eq_none_of_not_mem_keys (k : String) (v : List (String × Val))
    (h : k ∉ v.map (fun p => p.1)) : alookup k v = none := by
  simp only [alookup, Option.map_eq_none', List.find?_eq_none]
  intro p hp
  simp only [beq_iff_eq]
  intro hk
  exact h (List.mem_map.2 ⟨p, hp, hk⟩)

lemma was_in_original_false (past : List StepResult) (t : String) :
    was_in_original past t = false := by
  induction past with
  | nil => rfl
  | cons s rest ih =>
    simp only [was_in_original, List.any_cons] at ih ⊢
    rw [ih]
    have hs : stepresult_get s "tool" = none := rfl
    rw [hs]
    rfl


/-! ## Claim C1 -/

/-- The full registry tool-name list, in the manifest order. -/
def ALL_TOOL_NAMES : List String :=
  ["web_search", "search_wikipedia", "rag_retrieve", "get_weather",
   "get_current_datetime", "calculator", "python_repl"]

/-- A failed python_repl step already recorded in past_steps. -/
def pythonReplStep : PlanStepD :=
  { step_id := some 1, tool := "python_repl", input := .vstr "1+1" }

/-- State whose past_steps used python_repl (risk high). -/
def stateWithPythonRepl : PTEState :=
  { input := "calc",
    available_tools := ALL_TOOL_NAMES,
    past_steps := [{ step := pythonReplStep, status := "failure", output := "boom" }],
    replan_count := 0 }

/-- A re-plan proposing python_repl again. -/
def replanWithPythonRepl : PlanR :=
  { steps := [{ tool := "python_repl", input := .vstr "2+2" }] }

/-- C1: the claim says a high-risk step passes the re-plan check when
its tool already appears in past_steps.  The code reads the key `tool`
directly off the StepResult dicts (replanner.py:143-146), whose keys are
only `step`/`status`/`output`, so the membership test is identically
false and every high-risk step is rejected — even `python_repl` re-used
right after a recorded `python_repl` step, as the concrete evaluation
shows. -/
theorem replan_high_risk_reuse_rejected :
    (∀ (past : List StepResult) (t : String), was_in_original past t = false) ∧
    (replanner_node 3 stateWithPythonRepl (.ok replanWithPythonRepl)).1 =
      { error := some (some ("Re-plan에서 고위험 도구 추가 불가: " ++ "python_repl")) } ∧
    (replanner_node 3 stateWithPythonRepl (.ok replanWithPythonRepl)).1.plan = none :=
  ⟨was_in_original_false, rfl, rfl⟩

/-! ## Claim C2 -/

/-- A search-capability step. -/
def exSearchStep : PlanStepD :=
  { step_id := some 1, tool := "web_search", input := .vstr "hello" }

/-- State about to execute a web_search step. -/
def exSearchState : PTEState := { input := "find hello", plan := [exSearchStep] }

/-- C2: the claim says the invocation layer accepts the search-tool
dispatch carrying (name, input, utterance, history, intent,
time_sensitivity) and forwards it to the tool.  `run_tool`
(registry.py:37-43) declares no `intent`/`time_sensitive` keyword
parameters, so the call at executor.py:65-73 raises `TypeError` for any
tool implementation whatsoever — the step is recorded as a failure and
the tool is never invoked. -/
theorem executor_search_dispatch_type_error (impl : ToolImpl) :
    executor_node impl exSearchState =
      { plan := some [],
        past_steps := some
          [{ step := exSearchStep, status := "failure",
             output := errMsg (.unexpectedKwarg "run_tool" "intent") }] } := rfl

/-! ## Claim C3 -/

/-- C3: at the replan limit the node returns the ReplanLimitExceeded
error without consulting the backend (flag `false`) and leaves
`replan_count` and `plan` untouched; an accepted re-plan sets
`replan_count` to exactly the old value plus one; any `replan_count`
the node returns is the old value plus one (at most one increment per
invocation); consequently the count never exceeds the maximum, and the
backend is only ever called while the count is strictly below the
maximum. -/
theorem replanner_count_bounded (max_replan : Nat) (state : PTEState)
    (response : Except String PlanR) :
    (state.replan_count ≥ max_replan →
      (replanner_node max_replan state response).1.error
          = some (some (replanLimitMsg max_replan)) ∧
      (replanner_node max_replan state response).2 = false ∧
      (replanner_node max_replan state response).1.replan_count = none ∧
      (replanner_node max_replan state response).1.plan = none) ∧
    (∀ p, (replanner_node max_replan state response).1.plan = some p →
      (replanner_node max_replan state response).1.replan_count
          = some (state.replan_count + 1)) ∧
    (∀ c, (replanner_node max_replan state response).1.replan_count = some c →
      c = state.replan_count + 1) ∧
    (state.replan_count ≤ max_replan →
      ((replanner_node max_replan state response).1.replan_count.getD
          state.replan_count) ≤ max_replan) ∧
    ((replanner_node max_replan state response).2 = true →
      state.replan_count < max_replan) := by
  by_cases h : state.replan_count ≥ max_replan
  · have hn : replanner_node max_replan state response =
        ({ error := some (some (replanLimitMsg max_replan)) }, false) := by
      simp [replanner_node, h]
    rw [hn]
    refine ⟨fun _ => ⟨rfl, rfl, rfl, rfl⟩, fun p hp => by simp at hp,
      fun c hc => by simp at hc, fun hle => by simpa using hle,
      fun hfl => by simp at hfl⟩
  · have hlt : state.replan_count < max_replan := Nat.lt_of_not_le h
    cases response with
    | error e =>
      have hn : replanner_node max_replan state (.error e) =
          ({ error := some (some ("재계획 실패: " ++ e)) }, true) := by
        simp [replanner_node, h]
      rw [hn]
      exact ⟨fun hge => absurd hge h, fun p hp => by simp at hp,
        fun c hc => by simp at hc, fun hle => by simpa using hle, fun _ => hlt⟩
    | ok plan =>
      cases hv : validate_replan_steps state.available_tools state.past_steps
          1 plan.steps with
      | error msg =>
        have hn : replanner_node max_replan state (.ok plan) =
            ({ error := some (some msg) }, true) := by
          simp [replanner_node, h, hv]
        rw [hn]
        exact ⟨fun hge => absurd hge h, fun p hp => by simp at hp,
          fun c hc => by simp at hc, fun hle => by simpa using hle, fun _ => hlt⟩
      | ok pd =>
        have hn : replanner_node max_replan state (.ok plan) =
            ({ plan := some pd, replan_count := some (state.replan_count + 1) },
              true) := by
          simp [replanner_node, h, hv]
        rw [hn]
        refine ⟨fun hge => absurd hge h, fun p _ => rfl,
          fun c hc => by simpa using hc.symm, fun hle => by simpa using hlt,
          fun _ => hlt⟩

/-- State sitting exactly at the replan limit. -/
def exStateAtLimit : PTEState := { replan_count := 3 }

/-- A replacement plan the backend might have produced. -/
def exPlanR : PlanR := { steps := [{ tool := "calculator", input := .vstr "1+1" }] }

theorem replanner_count_bounded_witness :
    (replanner_node 3 exStateAtLimit (.ok exPlanR)).1.error
        = some (some (replanLimitMsg 3)) ∧
    (replanner_node 3 exStateAtLimit (.ok exPlanR)).2 = false := by
  have h := (replanner_count_bounded 3 exStateAtLimit (.ok exPlanR)).1 (by decide)
  exact ⟨h.1, h.2.1⟩

/-! ## Claim C4 -/

/-- C4: on a non-empty plan the executor never raises (it is a total
function); its delta is exactly the plan tail together with past_steps
extended by the one recorded StepResult for the popped step, whose
status/output convert any dispatch exception into a failure carrying
the exception message; no other state field appears in the delta. -/
theorem executor_delta_exact (impl : ToolImpl) (state : PTEState)
    (step : PlanStepD) (rest : List PlanStepD) (h : state.plan = step :: rest) :
    (executor_node impl state).plan = some rest ∧
    (executor_node impl state).past_steps
        = some (state.past_steps ++ [recorded_result impl state step]) ∧
    (recorded_result impl state step).step = step ∧
    (∀ e, executor_dispatch impl state step.tool
        (resolve_input step state.past_steps).1
        (resolve_input step state.past_steps).2 = .error e →
      (recorded_result impl state step).status = "failure" ∧
      (recorded_result impl state step).output = errMsg e) ∧
    (∀ o, executor_dispatch impl state step.tool
        (resolve_input step state.past_steps).1
        (resolve_input step state.past_steps).2 = .ok o →
      (recorded_result impl state step).status = "success" ∧
      (recorded_result impl state step).output = o) ∧
    (executor_node impl state).error = none ∧
    (executor_node impl state).replan_count = none ∧
    (executor_node impl state).result = none ∧
    (executor_node impl state).intent = none ∧
    (executor_node impl state).rewritten_query = none ∧
    (executor_node impl state).needs_tool = none ∧
    (executor_node impl state).time_sensitive = none := by
  have hn : executor_node impl state =
      { plan := some rest,
        past_steps := some (state.past_steps ++ [recorded_result impl state step]) } := by
    simp [executor_node, h]
  rw [hn]
  refine ⟨rfl, rfl, ?_, ?_, ?_, rfl, rfl, rfl, rfl, rfl, rfl, rfl⟩
  · unfold recorded_result
    cases executor_dispatch impl state step.tool
        (resolve_input step state.past_steps).1
        (resolve_input step state.past_steps).2 <;> rfl
  · intro e he
    unfold recorded_result
    rw [he]
    exact ⟨rfl, rfl⟩
  · intro o ho
    unfold recorded_result
    rw [ho]
    exact ⟨rfl, rfl⟩

/-- A calculator step about to be executed. -/
def exCalcStep : PlanStepD :=
  { step_id := some 1, tool := "calculator", input := .vstr "1+1" }

/-- Tool implementations that all raise. -/
def exFailImpl : ToolImpl := fun _ _ => .error "boom"

/-- State holding just the calculator step. -/
def exCalcState : PTEState := { input := "calc", plan := [exCalcStep] }

theorem executor_delta_exact_witness :
    (executor_node exFailImpl exCalcState).plan = some [] ∧
    (executor_node exFailImpl exCalcState).past_steps =
      some [{ step := exCalcStep, status := "failure", output := "boom" }] ∧
    (executor_node exFailImpl exCalcState).error = none :=
  ⟨(executor_delta_exact exFailImpl exCalcState exCalcStep [] rfl).1, rfl,
    (executor_delta_exact exFailImpl exCalcState exCalcStep [] rfl).2.2.2.2.2.1⟩

/-! ## Claim C5 -/

lemma validate_plan_steps_error_of_disallowed (avail : List String) :
    ∀ (idx : Nat) (steps : List PStep) (s : PStep), s ∈ steps →
      ¬ avail.contains s.tool →
      ∃ t, validate_plan_steps avail idx steps
          = .error ("허용되지 않은 도구: " ++ t) := by
  intro idx steps
  induction steps generalizing idx with
  | nil => intro s hs; exact absurd hs (List.not_mem_nil s)
  | cons head tail ih =>
    intro s hs hbad
    by_cases hh : avail.contains head.tool
    · rcases List.mem_cons.1 hs with rfl | htail
      · exact absurd hh hbad
      · obtain ⟨t, ht⟩ := ih (idx + 1) s htail hbad
        refine ⟨t, ?_⟩
        have hcond : ¬ ¬ avail.contains head.tool = true := fun hc => hc hh
        simp only [validate_plan_steps, if_neg hcond, ht]
    · exact ⟨head.tool, by simp only [validate_plan_steps, if_pos hh]⟩

lemma disallowed_msg_ne_empty (t : String) :
    ("허용되지 않은 도구: " ++ t).isEmpty = false := by
  rw [Bool.eq_false_iff]
  intro hc
  have he : ("허용되지 않은 도구: " ++ t) = "" := (String.isEmpty_iff _).1 hc
  have hl := congrArg String.length he
  rw [String.length_append] at hl
  have hpre : ("허용되지 않은 도구: " : String).length ≠ 0 := by decide
  have h0 : ("" : String).length = 0 := rfl
  omega

/-- C5: a plan containing a step whose tool is outside available_tools
is rejected whole — the planner delta carries a non-empty error, an
empty plan and empty past_steps (no prefix of the proposal survives) —
and the orchestrator then routes the merged state to the error
handler. -/
theorem planner_rejects_disallowed_tool (state : PTEState) (p : PlanR)
    (s : PStep) (hs : s ∈ p.steps)
    (hbad : ¬ state.available_tools.contains s.tool) :
    ∃ msg, msg.isEmpty = false ∧
      planner_node state (.ok p) =
        { error := some (some msg), plan := some [], past_steps := some [] } ∧
      after_planner (applyDelta state (planner_node state (.ok p)))
          = "error_handler" := by
  obtain ⟨t, ht⟩ := validate_plan_steps_error_of_disallowed
    state.available_tools 1 p.steps s hs hbad
  refine ⟨"허용되지 않은 도구: " ++ t, disallowed_msg_ne_empty t, ?_, ?_⟩
  · simp only [planner_node, ht]
  · have hn : planner_node state (.ok p) =
        { error := some (some ("허용되지 않은 도구: " ++ t)), plan := some [],
          past_steps := some [] } := by
      simp only [planner_node, ht]
    rw [hn]
    simp only [after_planner, applyDelta, errTruthy, Option.getD]
    rw [disallowed_msg_ne_empty t]
    rfl

/-- A plan proposing a tool outside available_tools. -/
def exRoguePlan : PlanR :=
  { steps := [{ tool := "sudo_shell", input := .vstr "rm -rf" }] }

/-- State whose available tools are the registry names. -/
def exAvailState : PTEState := { input := "do it", available_tools := ALL_TOOL_NAMES }

theorem planner_rejects_disallowed_tool_witness :
    planner_node exAvailState (.ok exRoguePlan) =
      { error := some (some ("허용되지 않은 도구: " ++ "sudo_shell")),
        plan := some [], past_steps := some [] } ∧
    after_planner (applyDelta exAvailState (planner_node exAvailState (.ok exRoguePlan)))
        = "error_handler" := by
  obtain ⟨msg, -, -, h3⟩ := planner_rejects_disallowed_tool exAvailState exRoguePlan
    { tool := "sudo_shell", input := .vstr "rm -rf" } (List.mem_singleton.2 rfl)
    (by decide)
  exact ⟨rfl, h3⟩

/-! ## Claim C9 -/

lemma validate_plan_steps_ids (avail : List String) :
    ∀ (steps : List PStep) (idx : Nat) (ds : List PlanStepD),
      validate_plan_steps avail idx steps = .ok ds →
      (∀ s ∈ steps, s.step_id = none) →
      ds.map (fun d => d.step_id)
        = (List.range steps.length).map (fun i => some ((idx + i : Nat) : Int)) := by
  intro steps
  induction steps with
  | nil =>
    intro idx ds h _
    simp only [validate_plan_steps] at h
    injection h with h
    subst h
    simp
  | cons head tail ih =>
    intro idx ds h hnone
    simp only [validate_plan_steps] at h
    by_cases hh : avail.contains head.tool
    · rw [if_neg (fun hc => hc hh)] at h
      cases ht : validate_plan_steps avail (idx + 1) tail with
      | error e => rw [ht] at h; cases h
      | ok tl =>
        rw [ht] at h
        injection h with h
        subst h
        have hh0 : head.step_id = none := hnone head (List.mem_cons_self _ _)
        have hid : (normalize_step idx head).step_id = some ((idx : Nat) : Int) := by
          simp [normalize_step, hh0]
        have htl := ih (idx + 1) tl ht (fun s hs => hnone s (List.mem_cons_of_mem _ hs))
        simp only [List.map_cons, hid, htl, List.length_cons, List.range_succ_eq_map,
          List.map_map, List.cons.injEq]
        refine ⟨rfl, ?_⟩
        apply List.map_congr_left
        intro a _
        simp only [Function.comp_apply]
        have hnat : idx + 1 + a = idx + (a + 1) := by omega
        rw [hnat]
    · rw [if_pos hh] at h
      cases h

lemma validate_replan_steps_ids (avail : List String) (past : List StepResult) :
    ∀ (steps : List PStep) (idx : Nat) (ds : List PlanStepD),
      validate_replan_steps avail past idx steps = .ok ds →
      (∀ s ∈ steps, s.step_id = none) →
      ds.map (fun d => d.step_id)
        = (List.range steps.length).map (fun i => some ((idx + i : Nat) : Int)) := by
  intro steps
  induction steps with
  | nil =>
    intro idx ds h _
    simp only [validate_replan_steps] at h
    injection h with h
    subst h
    simp
  | cons head tail ih =>
    intro idx ds h hnone
    simp only [validate_replan_steps] at h
    by_cases hh : avail.contains head.tool
    · rw [if_neg (fun hc => hc hh)] at h
      by_cases hr : ¬ is_tool_allowed_for_replan head.tool = true ∧
          ¬ was_in_original past head.tool = true
      · rw [if_pos hr] at h
        cases h
      · rw [if_neg hr] at h
        cases ht : validate_replan_steps avail past (idx + 1) tail with
        | error e => rw [ht] at h; cases h
        | ok tl =>
          rw [ht] at h
          injection h with h
          subst h
          have hh0 : head.step_id = none := hnone head (List.mem_cons_self _ _)
          have hid : (normalize_step idx head).step_id = some ((idx : Nat) : Int) := by
            simp [normalize_step, hh0]
          have htl := ih (idx + 1) tl ht (fun s hs => hnone s (List.mem_cons_of_mem _ hs))
          simp only [List.map_cons, hid, htl, List.length_cons, List.range_succ_eq_map,
            List.map_map, List.cons.injEq]
          refine ⟨rfl, ?_⟩
          apply List.map_congr_left
          intro a _
          simp only [Function.comp_apply]
          have hnat : idx + 1 + a = idx + (a + 1) := by omega
          rw [hnat]
    · rw [if_pos hh] at h
      cases h

/-- C9: when no proposed step carries its own step_id, any plan the
planner or re-planner validation accepts carries step_ids exactly
1, 2, ..., n in plan order. -/
theorem accepted_step_ids_sequential (avail : List String)
    (past : List StepResult) (steps : List PStep)
    (hnone : ∀ s ∈ steps, s.step_id = none) :
    (∀ ds, validate_plan_steps avail 1 steps = .ok ds →
      ds.map (fun d => d.step_id)
        = (List.range steps.length).map (fun i => some ((1 + i : Nat) : Int))) ∧
    (∀ ds, validate_replan_steps avail past 1 steps = .ok ds →
      ds.map (fun d => d.step_id)
        = (List.range steps.length).map (fun i => some ((1 + i : Nat) : Int))) :=
  ⟨fun ds h => validate_plan_steps_ids avail steps 1 ds h hnone,
   fun ds h => validate_replan_steps_ids avail past steps 1 ds h hnone⟩

/-- Two steps without step ids. -/
def exTwoSteps : List PStep :=
  [{ tool := "calculator", input := .vstr "1+1" },
   { tool := "web_search", input := .vstr "q" }]

/-- Their normalisation: ids 1 and 2. -/
def exTwoNorm : List PlanStepD :=
  [{ step_id := some 1, tool := "calculator", input := .vstr "1+1" },
   { step_id := some 2, tool := "web_search", input := .vstr "q" }]

theorem accepted_step_ids_sequential_witness :
    exTwoNorm.map (fun d => d.step_id)
      = (List.range exTwoSteps.length).map (fun i => some ((1 + i : Nat) : Int)) :=
  (accepted_step_ids_sequential ALL_TOOL_NAMES [] exTwoSteps
    (by intro s hs; fin_cases hs <;> rfl)).1 exTwoNorm rfl

/-! ## Claim C6 -/

/-- C6: with `input_from` present and parsing to step id N, the resolved
input is the output of the first past result whose step_id equals N,
flagged as derived from a previous step; when no past entry matches, or
the reference does not parse to an integer, the literal input is used
unchanged and the flag stays down. -/
theorem input_from_resolves_past_output (step : PlanStepD)
    (past : List StepResult) (f : String) (hf : step.input_from = some f) :
    (∀ n r, pyParseInt (strip_step f) = some n →
      past.find? (fun p => p.step.step_id == some n) = some r →
      resolve_input step past = (.vstr r.output, true)) ∧
    (∀ n, pyParseInt (strip_step f) = some n →
      (∀ r ∈ past, ¬ r.step.step_id = some n) →
      resolve_input step past = (step.input, false)) ∧
    (pyParseInt (strip_step f) = none →
      resolve_input step past = (step.input, false)) := by
  refine ⟨?_, ?_, ?_⟩
  · intro n r hn hfind
    have hpast : ¬ past.isEmpty := by
      cases past with
      | nil => simp at hfind
      | cons a l => simp
    have hfne : ¬ f.isEmpty := by
      intro hfe
      rw [String.isEmpty_iff] at hfe
      subst hfe
      rw [show pyParseInt (strip_step "") = none from rfl] at hn
      cases hn
    simp only [resolve_input, hf, if_pos (And.intro hfne hpast), hn, hfind]
  · intro n hn hnone
    have hfind : past.find? (fun p => p.step.step_id == some n) = none := by
      rw [List.find?_eq_none]
      intro r hr
      simpa using hnone r hr
    by_cases hc : ¬ f.isEmpty ∧ ¬ past.isEmpty
    · simp only [resolve_input, hf, if_pos hc, hn, hfind]
    · simp only [resolve_input, hf, if_neg hc]
  · intro hn
    by_cases hc : ¬ f.isEmpty ∧ ¬ past.isEmpty
    · simp only [resolve_input, hf, if_pos hc, hn]
    · simp only [resolve_input, hf, if_neg hc]

/-- A step referencing step 2, with a literal input as well. -/
def exRefStep : PlanStepD :=
  { step_id := some 3, tool := "web_search", input := .vstr "literal",
    input_from := some "step_2" }

/-- A past log whose step 2 produced "42". -/
def exPast42 : List StepResult :=
  [ { step := { step_id := some 2, tool := "calculator", input := .vstr "6*7" },
      status := "success", output := "42" } ]

theorem input_from_resolves_past_output_witness :
    resolve_input exRefStep exPast42 = (.vstr "42", true) :=
  (input_from_resolves_past_output exRefStep exPast42 "step_2" rfl).1 2
    { step := { step_id := some 2, tool := "calculator", input := .vstr "6*7" },
      status := "success", output := "42" } (by decide) (by rfl)

/-! ## Claims C7 and C10: dict-normalization lemmas -/

lemma validate_dict_error_of_missing (tn : String) :
    ∀ (ps : List (String × ParamSchema)) (m : List (String × Val)),
      (∃ p ∈ ps, p.2.required = true ∧ alookup p.1 m = none) →
      ∃ q, validate_dict tn ps m = .error (.missingRequiredParam tn q) := by
  intro ps
  induction ps with
  | nil =>
    intro m hex
    obtain ⟨p, hp, -, -⟩ := hex
    exact absurd hp (List.not_mem_nil p)
  | cons a rest ih =>
    intro m hex
    obtain ⟨an, asch⟩ := a
    obtain ⟨p, hp, hreq, hnone⟩ := hex
    rcases List.mem_cons.1 hp with heq | hp'
    · subst heq
      refine ⟨an, ?_⟩
      simp only [validate_dict, hnone]
      rw [if_pos hreq]
    · cases ha : alookup an m with
      | some w =>
        obtain ⟨q, hq⟩ := ih m ⟨p, hp', hreq, hnone⟩
        exact ⟨q, by simp only [validate_dict, ha, hq]⟩
      | none =>
        by_cases hr : asch.required = true
        · exact ⟨an, by simp only [validate_dict, ha]; rw [if_pos hr]⟩
        · obtain ⟨q, hq⟩ := ih m ⟨p, hp', hreq, hnone⟩
          cases hd : asch.default with
          | some d =>
            exact ⟨q, by simp only [validate_dict, ha, hd, hq]; rw [if_neg hr]⟩
          | none =>
            exact ⟨q, by simp only [validate_dict, ha, hd, hq]; rw [if_neg hr]⟩

lemma validate_dict_keys (tn : String) :
    ∀ (ps : List (String × ParamSchema)) (m v : List (String × Val)),
      validate_dict tn ps m = .ok v →
      ∀ k x, (k, x) ∈ v → k ∈ ps.map (fun p => p.1) := by
  intro ps
  induction ps with
  | nil =>
    intro m v h k x hk
    simp only [validate_dict] at h
    injection h with h
    subst h
    exact absurd hk (List.not_mem_nil _)
  | cons a rest ih =>
    intro m v h k x hk
    obtain ⟨an, asch⟩ := a
    simp only [validate_dict] at h
    cases ha : alookup an m with
    | some w =>
      rw [ha] at h
      cases ht : validate_dict tn rest m with
      | error e => rw [ht] at h; cases h
      | ok tl =>
        rw [ht] at h
        injection h with h
        subst h
        rcases List.mem_cons.1 hk with heq | htl
        · have hk1 : k = an := congrArg Prod.fst heq
          simp [hk1]
        · simpa using Or.inr (ih m tl ht k x htl)
    | none =>
      rw [ha] at h
      by_cases hr : asch.required = true
      · rw [if_pos hr] at h; cases h
      · rw [if_neg hr] at h
        cases hd : asch.default with
        | some d =>
          rw [hd] at h
          cases ht : validate_dict tn rest m with
          | error e => rw [ht] at h; cases h
          | ok tl =>
            rw [ht] at h
            injection h with h
            subst h
            rcases List.mem_cons.1 hk with heq | htl
            · have hk1 : k = an := congrArg Prod.fst heq
              simp [hk1]
            · simpa using Or.inr (ih m tl ht k x htl)
        | none =>
          rw [hd] at h
          simpa using Or.inr (ih m v h k x hk)

lemma validate_dict_ok_lookup (tn : String) :
    ∀ (ps : List (String × ParamSchema)) (m v : List (String × Val)),
      validate_dict tn ps m = .ok v →
      (ps.map (fun p => p.1)).Nodup →
      ∀ q sch, (q, sch) ∈ ps →
        (∀ x, alookup q m = some x → alookup q v = some x) ∧
        (alookup q m = none →
          (∀ d, sch.default = some d → alookup q v = some d) ∧
          (sch.default = none → alookup q v = none)) := by
  intro ps
  induction ps with
  | nil =>
    intro m v h hnd q sch hq
    exact absurd hq (List.not_mem_nil _)
  | cons a rest ih =>
    intro m v h hnd q sch hq
    obtain ⟨an, asch⟩ := a
    simp only [List.map_cons, List.nodup_cons] at hnd
    obtain ⟨hnotin, hnd'⟩ := hnd
    simp only [validate_dict] at h
    have hne_of_tail : ∀ sch', (q, sch') ∈ rest → (an == q) = false := by
      intro sch' hmem
      have hqk : q ∈ rest.map (fun p => p.1) := List.mem_map.2 ⟨(q, sch'), hmem, rfl⟩
      have : an ≠ q := fun hc => hnotin (hc ▸ hqk)
      exact beq_eq_false_iff_ne.2 this
    cases ha : alookup an m with
    | some w =>
      rw [ha] at h
      cases ht : validate_dict tn rest m with
      | error e => rw [ht] at h; cases h
      | ok tl =>
        rw [ht] at h
        injection h with h
        subst h
        rcases List.mem_cons.1 hq with heq | hq'
        · rw [Prod.ext_iff] at heq
          obtain ⟨h1, h2⟩ := heq
          subst h1
          subst h2
          refine ⟨?_, ?_⟩
          · intro x hx
            rw [ha] at hx
            injection hx with hx
            subst hx
            simp [alookup_cons]
          · intro hn
            rw [ha] at hn
            cases hn
        · have hfalse := hne_of_tail sch hq'
          rw [alookup_cons, if_neg (by simp [hfalse])]
          exact ih m tl ht hnd' q sch hq'
    | none =>
      rw [ha] at h
      by_cases hr : asch.required = true
      · rw [if_pos hr] at h; cases h
      · rw [if_neg hr] at h
        cases hd : asch.default with
        | some d =>
          rw [hd] at h
          cases ht : validate_dict tn rest m with
          | error e => rw [ht] at h; cases h
          | ok tl =>
            rw [ht] at h
            injection h with h
            subst h
            rcases List.mem_cons.1 hq with heq | hq'
            · rw [Prod.ext_iff] at heq
              obtain ⟨h1, h2⟩ := heq
              subst h1
              subst h2
              refine ⟨?_, ?_⟩
              · intro x hx
                rw [ha] at hx
                cases hx
              · intro _
                refine ⟨?_, ?_⟩
                · intro d' hd'
                  rw [hd] at hd'
                  injection hd' with hd'
                  subst hd'
                  simp [alookup_cons]
                · intro hcontra
                  rw [hd] at hcontra
                  cases hcontra
            · have hfalse := hne_of_tail sch hq'
              rw [alookup_cons, if_neg (by simp [hfalse])]
              exact ih m tl ht hnd' q sch hq'
        | none =>
          rw [hd] at h
          rcases List.mem_cons.1 hq with heq | hq'
          · rw [Prod.ext_iff] at heq
            obtain ⟨h1, h2⟩ := heq
            subst h1
            subst h2
            refine ⟨?_, ?_⟩
            · intro x hx
              rw [ha] at hx
              cases hx
            · intro _
              refine ⟨?_, ?_⟩
              · intro d' hd'
                rw [hd] at hd'
                cases hd'
              · intro _
                apply alookup_eq_none_of_not_mem_keys
                intro hin
                obtain ⟨p, hp, hfst⟩ := List.mem_map.1 hin
                have hk : p.1 ∈ rest.map (fun r => r.1) :=
                  validate_dict_keys tn rest m v h p.1 p.2 (by simpa using hp)
                exact hnotin (hfst ▸ hk)
          · exact ih m v h hnd' q sch hq'

/-- The claimed normalization contract of `validate_tool_input` for a
tool whose declared schema has a parameter mapping `ps`: absent input
fails with MissingRequiredParameter exactly when some parameter is
required and otherwise yields the empty argument set; a scalar binds to
the sole required parameter, else to the first declared one, else is
dropped; a structured input takes, per declared parameter, the supplied
value, else the declared default, else fails with
MissingRequiredParameter when required; any other shape fails with
UnsupportedInputType. -/
def NormalizationSpec (name : String) (ps : List (String × ParamSchema)) : Prop :=
  ((∃ p ∈ ps, p.2.required = true) →
    ∃ params, validate_tool_input name .vnone
        = .error (.missingRequiredAll name params)) ∧
  ((∀ p ∈ ps, p.2.required = false) →
    validate_tool_input name .vnone = .ok (some [])) ∧
  (∀ s q sch, ps.filter (fun p => p.2.required) = [(q, sch)] →
    validate_tool_input name (.vstr s) = .ok (some [(q, .vstr s)])) ∧
  (∀ s q sch rest, ps.filter (fun p => p.2.required) = [] → ps = (q, sch) :: rest →
    validate_tool_input name (.vstr s) = .ok (some [(q, .vstr s)])) ∧
  (∀ s, ps = [] → validate_tool_input name (.vstr s) = .ok (some [])) ∧
  (∀ m, (∃ p ∈ ps, p.2.required = true ∧ alookup p.1 m = none) →
    ∃ q, validate_tool_input name (.vdict m)
        = .error (.missingRequiredParam name q)) ∧
  (∀ m v, validate_tool_input name (.vdict m) = .ok (some v) →
    ∀ q sch, (q, sch) ∈ ps →
      (∀ x, alookup q m = some x → alookup q v = some x) ∧
      (alookup q m = none →
        (∀ d, sch.default = some d → alookup q v = some d) ∧
        (sch.default = none → alookup q v = none))) ∧
  (∀ n, validate_tool_input name (.vint n) = .error .unsupportedInput) ∧
  (∀ b, validate_tool_input name (.vbool b) = .error .unsupportedInput) ∧
  (∀ xs, validate_tool_input name (.vlist xs) = .error .unsupportedInput)

lemma normalization_spec_of_schema (name : String)
    (ps : List (String × ParamSchema))
    (hbridge : ∀ v, validate_tool_input name v = validate_with_schema name ps v)
    (hnd : (ps.map (fun p => p.1)).Nodup) :
    NormalizationSpec name ps := by
  refine ⟨?_, ?_, ?_, ?_, ?_, ?_, ?_, ?_, ?_, ?_⟩
  · intro hex
    refine ⟨(ps.filter (fun p => p.2.required)).map (fun p => p.1), ?_⟩
    rw [hbridge]
    simp only [validate_with_schema]
    rw [if_pos]
    intro hc
    rw [List.isEmpty_iff, List.map_eq_nil_iff] at hc
    obtain ⟨p, hp, hr⟩ := hex
    have : p ∈ ps.filter (fun p => p.2.required) := List.mem_filter.2 ⟨hp, hr⟩
    rw [hc] at this
    exact absurd this (List.not_mem_nil p)
  · intro hall
    rw [hbridge]
    simp only [validate_with_schema]
    rw [if_neg]
    intro hc
    apply hc
    rw [List.isEmpty_iff, List.map_eq_nil_iff, List.filter_eq_nil_iff]
    intro p hp
    simp [hall p hp]
  · intro s q sch hf
    rw [hbridge]
    simp only [validate_with_schema, hf, List.map_cons, List.map_nil]
  · intro s q sch rest hf hps
    subst hps
    rw [hbridge]
    simp only [validate_with_schema, hf, List.map_nil]
  · intro s hps
    rw [hbridge]
    simp only [validate_with_schema, hps, List.filter_nil, List.map_nil]
  · intro m hex
    obtain ⟨q, hq⟩ := validate_dict_error_of_missing name ps m hex
    refine ⟨q, ?_⟩
    rw [hbridge]
    simp only [validate_with_schema, hq]
  · intro m v hok
    rw [hbridge] at hok
    simp only [validate_with_schema] at hok
    cases hv : validate_dict name ps m with
    | error e => rw [hv] at hok; cases hok
    | ok v' =>
      rw [hv] at hok
      injection hok with hok
      injection hok with hok
      subst hok
      exact validate_dict_ok_lookup name ps m v' hv hnd
  · intro n; rw [hbridge]; rfl
  · intro b; rw [hbridge]; rfl
  · intro xs; rw [hbridge]; rfl

lemma tool_schema_cases (name : String) (schema : ToolSchema)
    (hmem : (name, schema) ∈ TOOL_SCHEMAS) :
    get_tool_schema name = some schema ∧
    (∀ ps, schema.input = some ps →
      ((ps.map (fun p => p.1)).Nodup ∧
        ("_raw" ∈ ps.map (fun p => p.1) → False) ∧
        TOOLS.contains name = true ∧
        ∀ v, validate_tool_input name v = validate_with_schema name ps v)) := by
  simp only [TOOL_SCHEMAS, List.mem_cons, List.not_mem_nil, or_false] at hmem
  rcases hmem with h | h | h | h | h | h | h <;>
    (injection h with h1 h2; subst h1; subst h2; refine ⟨rfl, ?_⟩; intro ps hps)
  · exact absurd hps (by simp)
  all_goals
    (injection hps with hps; subst hps;
      exact ⟨by decide, by decide, by decide, fun v => rfl⟩)

/-! ## Claim C7 -/

/-- C7 (amended): for every registered tool whose declared schema
carries a parameter mapping, `validate_tool_input` satisfies the full
normalization contract `NormalizationSpec`; a registered tool whose
declared schema specifies no input parameters (`input: None`,
get_current_datetime) instead ignores every input of any shape and is
invoked with no arguments. -/
theorem validate_input_normalization (name : String) (schema : ToolSchema)
    (hmem : (name, schema) ∈ TOOL_SCHEMAS) :
    (schema.input = none → ∀ v, validate_tool_input name v = .ok none) ∧
    (∀ ps, schema.input = some ps → NormalizationSpec name ps) := by
  obtain ⟨hget, hrest⟩ := tool_schema_cases name schema hmem
  constructor
  · intro hin v
    simp only [validate_tool_input, hget, hin]
  · intro ps hps
    obtain ⟨hnd, -, -, hbridge⟩ := hrest ps hps
    exact normalization_spec_of_schema name ps hbridge hnd

/-- C7 counterexample: the claim as stated says any input shape other
than absent/scalar/structured fails with UnsupportedInputType for every
tool with a declared schema; get_current_datetime has a declared schema
(with `input: None`) yet a list input is silently ignored and the
normalization succeeds. -/
theorem validate_list_input_not_rejected :
    validate_tool_input "get_current_datetime" (.vlist []) = .ok none := rfl

theorem validate_input_normalization_witness :
    validate_tool_input "web_search" (.vstr "q")
      = .ok (some [("query", .vstr "q")]) :=
  ((validate_input_normalization "web_search"
      { input := some [("query", { required := true })] }
      (List.mem_cons_of_mem _ (List.mem_cons_of_mem _ (List.mem_cons_of_mem _
        (List.mem_cons_self _ _))))).2
    [("query", { required := true })] rfl).2.2.1 "q" "query"
    { required := true } rfl

/-! ## Claim C10 -/

lemma alookup_inject_none (k : String) (validated : List (String × Val))
    (ctx : Option String) (fps : Bool) (hist : Val)
    (hk : alookup k validated = none)
    (h1 : k ≠ "context") (h2 : k ≠ "from_previous_step") (h3 : k ≠ "history") :
    alookup k (inject_search_context validated ctx fps hist) = none := by
  have htail : alookup k
      [("from_previous_step", Val.vbool fps), ("history", hist)] = none := by
    rw [alookup_cons, if_neg (by simp [beq_iff_eq]; exact fun hc => h2 hc.symm),
      alookup_cons, if_neg (by simp [beq_iff_eq]; exact fun hc => h3 hc.symm),
      alookup_nil]
  unfold inject_search_context
  cases ctx with
  | none =>
    dsimp only
    rw [alookup_append, hk, htail]
    rfl
  | some c =>
    dsimp only
    by_cases hc : c.isEmpty
    · rw [if_neg (fun hcon => hcon hc), alookup_append, hk, htail]
      rfl
    · rw [if_pos hc, alookup_append, alookup_append, hk,
        alookup_cons, if_neg (by simp [beq_iff_eq]; exact fun hcon => h1 hcon.symm),
        alookup_nil, htail]
      rfl

/-- C10: for every registered tool with a declared parameter mapping and
every structured input, the normalized argument set only binds declared
parameter names — any undeclared key of the input is discarded — and
`run_tool` never passes such a key to the tool callable (the only keys
it ever adds beyond the normalized set are the search-context keys). -/
theorem normalized_args_only_declared (name : String) (schema : ToolSchema)
    (ps : List (String × ParamSchema)) (m v : List (String × Val))
    (hmem : (name, schema) ∈ TOOL_SCHEMAS) (hin : schema.input = some ps)
    (hok : validate_tool_input name (.vdict m) = .ok (some v)) :
    (∀ k x, (k, x) ∈ v → k ∈ ps.map (fun p => p.1)) ∧
    (∀ k, k ∉ ps.map (fun p => p.1) →
      k ∉ (["context", "from_previous_step", "history"] : List String) →
      ∀ ctx fps hist args,
        run_tool_call name (.vdict m) ctx fps hist = .ok (.keyword args) →
        alookup k args = none) := by
  obtain ⟨hget, hrest⟩ := tool_schema_cases name schema hmem
  obtain ⟨hnd, hraw, hcontains, hbridge⟩ := hrest ps hin
  have hkeys : ∀ k x, (k, x) ∈ v → k ∈ ps.map (fun p => p.1) := by
    have h1 := hok
    rw [hbridge] at h1
    simp only [validate_with_schema] at h1
    cases hv : validate_dict name ps m with
    | error e => rw [hv] at h1; cases h1
    | ok v' =>
      rw [hv] at h1
      injection h1 with h1
      injection h1 with h1
      subst h1
      exact validate_dict_keys name ps m v' hv
  refine ⟨hkeys, ?_⟩
  intro k hknot hkctx ctx fps hist args hcall
  have hkv : alookup k v = none := by
    apply alookup_eq_none_of_not_mem_keys
    intro hinv
    obtain ⟨p, hp, hfst⟩ := List.mem_map.1 hinv
    exact hknot (hfst ▸ hkeys p.1 p.2 (by simpa using hp))
  have hraw_none : alookup "_raw" v = none := by
    apply alookup_eq_none_of_not_mem_keys
    intro hinv
    obtain ⟨p, hp, hfst⟩ := List.mem_map.1 hinv
    exact hraw (hfst ▸ hkeys p.1 p.2 (by simpa using hp))
  have hno : ¬ ¬ TOOLS.contains name = true := fun hc => hc hcontains
  unfold run_tool_call at hcall
  rw [if_neg hno] at hcall
  simp only [hok, hraw_none] at hcall
  simp only [List.mem_cons, List.not_mem_nil, or_false, not_or] at hkctx
  obtain ⟨hk1, hk2, hk3⟩ := hkctx
  by_cases hsearch :
      (["web_search", "rag_retrieve", "search_wikipedia"] : List String).contains name
  · rw [if_pos hsearch] at hcall
    injection hcall with hcall
    injection hcall with hcall
    subst hcall
    exact alookup_inject_none k v ctx fps hist hkv hk1 hk2 hk3
  · rw [if_neg hsearch] at hcall
    injection hcall with hcall
    injection hcall with hcall
    subst hcall
    exact hkv


/-- A structured web_search input with an undeclared key. -/
def exDictInput : List (String × Val) :=
  [("query", .vstr "q"), ("extra", .vstr "z")]

theorem normalized_args_only_declared_witness :
    validate_tool_input "web_search" (.vdict exDictInput)
      = .ok (some [("query", .vstr "q")]) ∧
    alookup "extra"
      (inject_search_context [("query", Val.vstr "q")] (some "u") false .vnone)
      = none := by
  refine ⟨rfl, ?_⟩
  exact ((normalized_args_only_declared "web_search"
      { input := some [("query", { required := true })] }
      [("query", { required := true })] exDictInput [("query", .vstr "q")]
      (List.mem_cons_of_mem _ (List.mem_cons_of_mem _ (List.mem_cons_of_mem _
        (List.mem_cons_self _ _)))) rfl rfl).2)
    "extra" (by decide) (by decide) (some "u") false .vnone
    (inject_search_context [("query", .vstr "q")] (some "u") false .vnone) rfl

/-! ## Claim C8 -/

/-- The deterministic fallback delta of the classifier
(intent_classifier.py:333-340). -/
def classifierFallback (utterance : String) : StateDelta :=
  { intent := some "new_question", rewritten_query := some utterance,
    needs_tool := some true, time_sensitive := some "none" }

/-- C8: if the backend raises, or its response carries no parseable
labeled field (no Intent/Time sensitive/Needs tool alternative matches
and the Rewritten-query capture yields no override), the classifier
node returns exactly {intent=new_question, rewritten_query=utterance,
needs_tool=true, time_sensitivity=none}.  The node is a total function,
so classification never blocks the turn. -/
theorem classifier_fallback_deterministic (state : PTEState)
    (backend : Except String String) :
    (∀ e, backend = .error e →
      intent_classifier_node state backend = classifierFallback state.input) ∧
    (∀ txt, backend = .ok txt →
      findLabeledAlt "intent:"
        ["new_question", "follow_up", "clarification", "chitchat"] (pyStrip txt) = none →
      findLabeledAlt "time sensitive:" ["none", "current", "specified"] (pyStrip txt) = none →
      findLabeledAlt "needs tool:" ["true", "false"] (pyStrip txt) = none →
      query_override (pyStrip txt) = none →
      intent_classifier_node state backend = classifierFallback state.input) := by
  constructor
  · intro e he
    subst he
    rfl
  · intro txt he hintent htime hneeds hquery
    subst he
    simp only [intent_classifier_node, _parse_intent_response, hintent, htime, hneeds,
      hquery, Option.getD_none, classifierFallback]
    have hchit : (("new_question" == "chitchat") : Bool) = false := by decide
    rw [hchit]
    simp only [Bool.false_eq_true, if_false, ite_self]

/-- A backend response with no labeled fields at all. -/
def exOpaqueResponse : String := "zzz"

/-- A state whose utterance is "u". -/
def exUState : PTEState := { input := "u" }

theorem classifier_fallback_deterministic_witness :
    intent_classifier_node exUState (.ok exOpaqueResponse)
      = classifierFallback "u" :=
  (classifier_fallback_deterministic exUState (.ok exOpaqueResponse)).2
    exOpaqueResponse rfl (by decide) (by decide) (by decide) (by decide)
